import Mathlib

/-!
Verification of the AOTInductor model runtime header
(torch/csrc/inductor/aoti_runtime/model.h) via a shallow embedding.

Conventions of the embedding:
* machine integers are `Nat`/`Int`; `size_t` arithmetic that cannot
  overflow in the modelled scenarios is plain `Nat` arithmetic;
* `throw std::runtime_error` / AOTI_RUNTIME_CHECK failures are
  `Except.error` with the source's message;
* `std::unordered_map<std::string, Handle>` is an association list with
  first-match lookup (`emplace` appends, an earlier entry for the same
  key shadows a later one, exactly like `emplace` which keeps the
  existing entry);
* `std::vector<ConstantHandle>` (default-constructed entries wrap a null
  handle) is `List (Option h)` with `none` for an unset slot;
* the `opaque_metadata` field of `ConstInfo` is rendered `extra_metadata`;
* pointers returned by `constant_ptr` / created tensors carry a symbolic
  location (`Ptr`): into the payload, into the device blob, or null.
-/

namespace AOTI

/-- A tensor handle registered in a constants map; handles are opaque to
the registry logic, so the registry embedding is generic in them. -/
abbrev Handle := Nat

/-- First-match lookup in an association list, the observable behaviour of
`std::unordered_map::find` given the emplace discipline above. -/
def lookup_map {H : Type} (m : List (String × H)) (nm : String) : Option H :=
  (m.find? (fun p => p.1 = nm)).map (fun p => p.2)

/-- `std::vector::resize(n)` with default-constructed (unset) new slots. -/
def resize_arr {H : Type} (a : List (Option H)) (n : Nat) : List (Option H) :=
  if a.length ≤ n then a ++ List.replicate (n - a.length) none else a.take n

/-- The array `update_constants_array_from_map` starts from: a fresh
all-unset vector of `names.length` slots when `constants_` is null,
otherwise the existing vector resized to `names.length` (model.h:498-503). -/
def uacm_base {H : Type} (names : List String)
    (carrOpt : Option (List (Option H))) : List (Option H) :=
  match carrOpt with
  | none => List.replicate names.length none
  | some a => resize_arr a names.length

/-- The slot update of model.h:506-509: when the find succeeded, the slot
is overwritten with the found handle, otherwise it is left as it was. -/
def found_or {H : Type} (found : Option H) (slot : Option H) : Option H :=
  match found with
  | some h => some h
  | none => slot

/-- `AOTInductorModelBase::update_constants_array_from_map` (model.h:493-512):
throws when no map is installed; otherwise, for each descriptor ordinal,
looks the descriptor's name up in the map and overwrites the slot with the
found handle, leaving the slot as-is when the name is absent. -/
def update_constants_array_from_map {H : Type} (names : List String)
    (cmapOpt : Option (List (String × H)))
    (carrOpt : Option (List (Option H))) :
    Except String (List (Option H)) :=
  match cmapOpt with
  | none =>
    .error "constants_map_ was not ready when constants_ is trying to be constructed from it!"
  | some m =>
    .ok (List.zipWith
      (fun nm slot => found_or (lookup_map m nm) slot)
      names (uacm_base names carrOpt))

/-- `AOTInductorModelBase::update_constants_map` (model.h:514-521): installs
the new map and, when `remap_constants_array` is set, rebuilds the indexed
array from it. Returns the new (map, array) pair of the instance. -/
def update_constants_map {H : Type} (names : List String)
    (m : List (String × H)) (carrOpt : Option (List (Option H)))
    (remap_constants_array : Bool) :
    Except String (Option (List (String × H)) × Option (List (Option H))) :=
  if remap_constants_array then
    (update_constants_array_from_map names (some m) carrOpt).map
      (fun arr => (some m, some arr))
  else
    .ok (some m, carrOpt)

theorem length_resize_arr {H : Type} (a : List (Option H)) (n : Nat) :
    (resize_arr a n).length = n := by
  unfold resize_arr
  split
  · simp only [List.length_append, List.length_replicate]; omega
  · simp only [List.length_take]; omega

theorem length_uacm_base {H : Type} (names : List String)
    (carrOpt : Option (List (Option H))) :
    (uacm_base names carrOpt).length = names.length := by
  unfold uacm_base
  cases carrOpt with
  | none => simp
  | some a => exact length_resize_arr a names.length

theorem zipWith_getD {α β γ : Type} (f : α → β → γ) (as : List α)
    (bs : List β) (i : Nat) (d : γ) (dA : α) (dB : β)
    (h1 : i < as.length) (h2 : i < bs.length) :
    (List.zipWith f as bs).getD i d = f (as.getD i dA) (bs.getD i dB) := by
  induction as generalizing bs i with
  | nil => simp at h1
  | cons a as ih =>
    cases bs with
    | nil => simp at h2
    | cons b bs =>
      cases i with
      | zero => simp
      | succ j =>
        simp only [List.zipWith_cons_cons, List.getD_cons_succ]
        exact ih bs j (by simpa using h1) (by simpa using h2)

/-- C1 (amended): after `update_constants_map` (with rebuild) the indexed
array has one slot per constant; the slot of every constant whose name is
present in the new map holds exactly the handle stored in the map under
that name; the slot of every constant whose name is absent is left
*unchanged* — unset when the array is freshly created (or the slot was
beyond the old array's length), but retaining its previous, possibly
stale, handle otherwise. Swapping in a map missing exactly one name
therefore yields exactly one unset slot only when the array starts fresh
or that slot was already unset. -/
theorem update_constants_map_rebuild_characterization {H : Type}
    (names : List String) (m : List (String × H))
    (carrOpt : Option (List (Option H))) (arr : List (Option H))
    (h : update_constants_map names m carrOpt true = .ok (some m, some arr)) :
    arr.length = names.length ∧
    ∀ i, i < names.length →
      arr.getD i none =
        found_or (lookup_map m (names.getD i ""))
          ((uacm_base names carrOpt).getD i none) := by
  have harr : arr = List.zipWith
      (fun nm slot => found_or (lookup_map m nm) slot)
      names (uacm_base names carrOpt) := by
    unfold update_constants_map update_constants_array_from_map at h
    simp [Except.map] at h
    exact h.symm
  subst harr
  constructor
  · simp [length_uacm_base]
  · intro i hi
    exact zipWith_getD _ names (uacm_base names carrOpt) i none "" none hi
      (by rw [length_uacm_base]; exact hi)

/-- C1 counterexample: install a full map for constants `["a", "b"]` (both
array slots become set), then swap in a map missing `"b"` and rebuild; the
ordinal-1 slot keeps its stale handle `2` instead of being unset, so the
rebuilt array has zero unset slots, not exactly one as the claim predicts
for a map missing exactly one constant's name. -/
theorem rebuild_after_swap_keeps_stale_slot :
    update_constants_map ["a", "b"] [("a", (1 : Handle)), ("b", 2)] none true
      = .ok (some [("a", 1), ("b", 2)], some [some 1, some 2]) ∧
    update_constants_map ["a", "b"] [("a", (3 : Handle))]
        (some [some 1, some 2]) true
      = .ok (some [("a", 3)], some [some 3, some 2]) ∧
    lookup_map [("a", (3 : Handle))] "b" = none ∧
    ¬ [some (3 : Handle), some 2].getD 1 none = none ∧
    [some (3 : Handle), some 2].countP (fun s => s.isNone) = 0 :=
  ⟨rfl, rfl, by decide, by decide, by decide⟩

/-- Witness for the C1 amended theorem at the concrete swap scenario. -/
theorem rebuild_characterization_witness :
    [some (3 : Handle), some 2].getD 1 none =
      found_or (lookup_map [("a", (3 : Handle))] (["a", "b"].getD 1 ""))
        ((uacm_base ["a", "b"] (some [some (1 : Handle), some 2])).getD 1
          none) :=
  (update_constants_map_rebuild_characterization ["a", "b"] [("a", 3)]
    (some [some 1, some 2]) [some 3, some 2] rfl).2 1 (by decide)

/-! ## Device-target string parsing (model.h:89-115, `parse_device_str`)

The regex `(cpu|cuda|xpu)(:([0-9]+))?` is matched against the whole string
(`std::regex_match`); the embedding decomposes the same language by hand:
a kind alternative followed by an optional `:digits` suffix. The build with
`USE_XPU` defined (all three device kinds valid) is modelled; the device
type codes returned by `aoti_torch_device_type_*` are rendered as an
enumeration since only their distinctness matters. -/

/-- The three device-kind alternatives of the regex / the branches mapping
the matched kind to a device type code. -/
inductive DevKind where
  | cpu : DevKind
  | cuda : DevKind
  | xpu : DevKind
deriving DecidableEq

/-- The character class `[0-9]` of the regex. -/
def isDigitChar (c : Char) : Bool :=
  decide ('0' ≤ c) && decide (c ≤ '9')

/-- `stoi` on a (nonempty, all-digit) match of `[0-9]+`. -/
def digitsToNat (cs : List Char) : Nat :=
  cs.foldl (fun a c => a * 10 + (c.toNat - 48)) 0

/-- Matching the leading `(cpu|cuda|xpu)` alternative of the regex: the
matched kind plus the remainder of the string. -/
def matchKindL (cs : List Char) : Option (DevKind × List Char) :=
  if cs.take 3 = ['c', 'p', 'u'] then some (DevKind.cpu, cs.drop 3)
  else if cs.take 4 = ['c', 'u', 'd', 'a'] then some (DevKind.cuda, cs.drop 4)
  else if cs.take 3 = ['x', 'p', 'u'] then some (DevKind.xpu, cs.drop 3)
  else none

/-- Matching the optional `(:([0-9]+))?` tail: an empty remainder matches
with no index group, `:` followed by one or more digits matches with the
index group, anything else fails the whole regex. -/
def matchRestL (cs : List Char) : Option (Option Nat) :=
  if cs = [] then some none
  else if cs.take 1 = [':'] ∧ cs.drop 1 ≠ [] ∧ (cs.drop 1).all isDigitChar then
    some (some (digitsToNat (cs.drop 1)))
  else none

/-- `parse_device_str` (model.h:89-115), USE_XPU build: full-match the
regex, map the kind to a device type (throwing on no match), and set
`device_idx` from the captured index or `-1` when the index group is
absent ("use the device currently active in this execution context"). -/
def parse_device_str (device_str : String) : Except String (DevKind × Int) :=
  match matchKindL device_str.data with
  | none => .error ("Invalid device: " ++ device_str)
  | some (k, rest) =>
    match matchRestL rest with
    | none => .error ("Invalid device: " ++ device_str)
    | some idxOpt =>
      .ok (k, match idxOpt with
              | some n => (n : Int)
              | none => -1)

/-- The language `kind(:index)?` described by the spec: one of the three
device kinds, optionally followed by a colon and a nonempty digit string. -/
def devStrShape (cs : List Char) : Bool :=
  decide (cs = ['c', 'p', 'u']) || decide (cs = ['c', 'u', 'd', 'a']) ||
  decide (cs = ['x', 'p', 'u']) ||
  (decide (cs.take 4 = ['c', 'p', 'u', ':']) &&
    cs.drop 4 ≠ [] && (cs.drop 4).all isDigitChar) ||
  (decide (cs.take 5 = ['c', 'u', 'd', 'a', ':']) &&
    cs.drop 5 ≠ [] && (cs.drop 5).all isDigitChar) ||
  (decide (cs.take 4 = ['x', 'p', 'u', ':']) &&
    cs.drop 4 ≠ [] && (cs.drop 4).all isDigitChar)

theorem take_succ_of_take_eq (cs : List Char) (pre : List Char) (c : Char)
    (rest : List Char) (h : cs.take pre.length = pre)
    (hrest : cs.drop pre.length = c :: rest) :
    cs.take (pre.length + 1) = pre ++ [c] ∧ cs.drop (pre.length + 1) = rest := by
  have hd : cs = pre ++ (c :: rest) := by
    conv_lhs => rw [← List.take_append_drop pre.length cs, h, hrest]
  constructor
  · rw [hd, List.take_append_eq_append_take]
    simp
  · rw [hd, List.drop_append_eq_append_drop]
    simp

/-- Whether an `Except` result is a success (throw-free execution). -/
def isOkE {ε α : Type} : Except ε α → Bool
  | .ok _ => true
  | .error _ => false

theorem head_colon_of_take_one (cs : List Char) (h : cs.take 1 = [':']) :
    cs = ':' :: cs.drop 1 := by
  conv_lhs => rw [← List.take_append_drop 1 cs, h]
  rfl

theorem parse_ok_inv (s : String)
    (h : isOkE (parse_device_str s) = true) :
    ∃ k rest idxOpt, matchKindL s.data = some (k, rest) ∧
      matchRestL rest = some idxOpt := by
  unfold parse_device_str at h
  cases hk : matchKindL s.data with
  | none => rw [hk] at h; simp [isOkE] at h
  | some kr =>
    obtain ⟨k, rest⟩ := kr
    rw [hk] at h
    cases hr : matchRestL rest with
    | none => simp only [hr, isOkE] at h; exact absurd h (by decide)
    | some idxOpt => exact ⟨k, rest, idxOpt, rfl, hr⟩

theorem shape_of_kind_rest (cs : List Char) (pre : List Char) (rest : List Char)
    (hpre : cs.take pre.length = pre) (hrest : cs.drop pre.length = rest)
    (hr : (matchRestL rest).isSome = true) :
    cs = pre ∨ (cs.take (pre.length + 1) = pre ++ [':'] ∧
      cs.drop (pre.length + 1) ≠ [] ∧
      (cs.drop (pre.length + 1)).all isDigitChar = true) := by
  unfold matchRestL at hr
  split_ifs at hr with e1 e2
  · left
    conv_lhs => rw [← List.take_append_drop pre.length cs]
    rw [hpre, hrest, e1, List.append_nil]
  · right
    have hcol : rest = ':' :: rest.drop 1 := head_colon_of_take_one rest e2.1
    have hts := take_succ_of_take_eq cs pre ':' (rest.drop 1) hpre
      (by rw [hrest]; exact hcol)
    refine ⟨hts.1, ?_, ?_⟩
    · rw [hts.2]; exact e2.2.1
    · rw [hts.2]; exact e2.2.2
  · simp at hr

/-- Any string accepted by `parse_device_str` is of the form `kind` or
`kind:digits` with `kind` one of `cpu`, `cuda`, `xpu`. -/
theorem parse_ok_shape (s : String)
    (h : isOkE (parse_device_str s) = true) :
    devStrShape s.data = true := by
  obtain ⟨k, rest, idxOpt, hk, hr⟩ := parse_ok_inv s h
  have hrs : (matchRestL rest).isSome = true := by rw [hr]; rfl
  unfold matchKindL at hk
  unfold devStrShape
  split_ifs at hk with h1 h2 h3
  · injection hk with hk2
    injection hk2 with hka hkb
    rcases shape_of_kind_rest s.data ['c', 'p', 'u'] rest h1
      (by simpa using hkb) hrs with hc | ⟨ht, hne, hall⟩
    · simp [hc]
    · simp only [List.length_cons, List.length_nil] at ht hne hall
      simp [ht, hne, hall]
  · injection hk with hk2
    injection hk2 with hka hkb
    rcases shape_of_kind_rest s.data ['c', 'u', 'd', 'a'] rest h2
      (by simpa using hkb) hrs with hc | ⟨ht, hne, hall⟩
    · simp [hc]
    · simp only [List.length_cons, List.length_nil] at ht hne hall
      simp [ht, hne, hall]
  · injection hk with hk2
    injection hk2 with hka hkb
    rcases shape_of_kind_rest s.data ['x', 'p', 'u'] rest h3
      (by simpa using hkb) hrs with hc | ⟨ht, hne, hall⟩
    · simp [hc]
    · simp only [List.length_cons, List.length_nil] at ht hne hall
      simp [ht, hne, hall]

/-- C4: `parse_device_str` maps `"cpu"` to the CPU kind with index `-1`
(resolved later as the current device), `"cuda:1"` to the cuda kind with
index `1`, `"xpu"` to the xpu kind with index `-1`, throws on `"tpu"`, and
accepts only strings of the form `kind[:index]` with `kind` one of
`cpu`/`cuda`/`xpu` and `index` a nonempty digit string. -/
theorem parse_device_str_spec :
    parse_device_str "cpu" = .ok (DevKind.cpu, -1) ∧
    parse_device_str "cuda:1" = .ok (DevKind.cuda, 1) ∧
    parse_device_str "xpu" = .ok (DevKind.xpu, -1) ∧
    isOkE (parse_device_str "tpu") = false ∧
    ∀ s : String, isOkE (parse_device_str s) = true → devStrShape s.data = true :=
  ⟨rfl, rfl, rfl, rfl, parse_ok_shape⟩

/-- Witness for C4 at the concrete input `"cuda:1"`. -/
theorem parse_device_str_spec_witness : devStrShape "cuda:1".data = true :=
  parse_device_str_spec.2.2.2.2 "cuda:1" rfl

/-! ## Self-mapped payload location (model.h:578-617, `_get_constants_start`,
USE_MMAP_SELF build, first call with `self_mmap` still null)

The artifact file is a byte list; the two 8-byte little-endian header
fields live at the start of the anchor region
(`_binary_constants_bin_start`), modelled as its own byte list. OS-level
failures (open / dladdr / mmap returning MAP_FAILED) are outside the
embedding; the arithmetic, the alignment check and the trailing-magic
integrity check are modelled exactly. -/

/-- Little-endian `uint64_t` read of 8 bytes at `off`. -/
def readU64LE (bytes : List Nat) (off : Nat) : Nat :=
  (List.range 8).foldl (fun a j => a + bytes.getD (off + j) 0 * 256 ^ j) 0

/-- The self-map inputs: the anchor region holding the header, and the
bytes of the shared-library file the payload is appended to. -/
structure SelfMapInput where
  anchor : List Nat
  file : List Nat
deriving DecidableEq

/-- `weights_size`: first 8-byte header field (model.h:593-594). -/
def sm_weights_size (inp : SelfMapInput) : Nat :=
  readU64LE inp.anchor 0

/-- `magic_number`: second 8-byte header field (model.h:595-596). -/
def sm_magic_number (inp : SelfMapInput) : Nat :=
  readU64LE inp.anchor 8

/-- `weights_offset = fsize - weights_size` (model.h:597), in the signed
arithmetic of `off_t`. -/
def sm_weights_offset (inp : SelfMapInput) : Int :=
  (inp.file.length : Int) - (sm_weights_size inp : Int)

/-- The mapped region `[weights_offset, weights_offset + weights_size)` of
the file (model.h:601-607). -/
def sm_mapped (inp : SelfMapInput) : List Nat :=
  (inp.file.drop (sm_weights_offset inp).toNat).take (sm_weights_size inp)

/-- The trailing 8-byte magic at `self_mmap + weights_size - 8`
(model.h:611-613). -/
def sm_trailing (inp : SelfMapInput) : Nat :=
  readU64LE (sm_mapped inp) (sm_weights_size inp - 8)

/-- `_get_constants_start` (model.h:578-617): check
`weights_offset & 0x3fff == 0` (16 KiB alignment, the bit-test on the
two's-complement value equals `emod 16384`), map the payload region, check
the trailing magic equals the header's, and return the mapped payload. -/
def sm_get_constants_start (inp : SelfMapInput) : Except String (List Nat) :=
  if (sm_weights_offset inp) % 16384 ≠ 0 then
    .error "weights_offset must be aligned to 16K boundary"
  else if sm_trailing inp ≠ sm_magic_number inp then
    .error "Weigths data seems corrupt"
  else
    .ok (sm_mapped inp)

/-- C5: on the self-map path, a misaligned `weights_offset = file_size -
payload_size` is a fatal error; an aligned offset with a mismatched
trailing magic is a fatal error; and when both checks pass the call
succeeds with the mapped region, which holds exactly `payload_size`
usable bytes. -/
theorem sm_get_constants_start_spec (inp : SelfMapInput)
    (hsz : sm_weights_size inp ≤ inp.file.length) :
    ((sm_weights_offset inp) % 16384 ≠ 0 →
      isOkE (sm_get_constants_start inp) = false) ∧
    ((sm_weights_offset inp) % 16384 = 0 →
      sm_trailing inp ≠ sm_magic_number inp →
      isOkE (sm_get_constants_start inp) = false) ∧
    ((sm_weights_offset inp) % 16384 = 0 →
      sm_trailing inp = sm_magic_number inp →
      sm_get_constants_start inp = .ok (sm_mapped inp) ∧
      (sm_mapped inp).length = sm_weights_size inp) := by
  refine ⟨?_, ?_, ?_⟩
  · intro hmis
    unfold sm_get_constants_start
    rw [if_pos hmis]
    rfl
  · intro hal hmag
    unfold sm_get_constants_start
    rw [if_neg (by simpa using hal), if_pos hmag]
    rfl
  · intro hal hmag
    constructor
    · unfold sm_get_constants_start
      rw [if_neg (by simpa using hal), if_neg (by simpa using hmag)]
    · unfold sm_mapped
      rw [List.length_take, List.length_drop]
      have hoff : (sm_weights_offset inp).toNat =
          inp.file.length - sm_weights_size inp := by
        unfold sm_weights_offset
        omega
      rw [hoff]
      omega

/-- Witness for C5: a 16-byte artifact whose payload is the whole file
(`weights_offset = 0`, trivially 16 KiB-aligned), header `(size = 16,
magic = 7)`, and trailing bytes encoding `7`; the accessor succeeds and
yields exactly 16 usable bytes. -/
theorem sm_get_constants_start_spec_witness :
    sm_get_constants_start
        ⟨[16, 0, 0, 0, 0, 0, 0, 0, 7, 0, 0, 0, 0, 0, 0, 0],
         [9, 9, 9, 9, 9, 9, 9, 9, 7, 0, 0, 0, 0, 0, 0, 0]⟩
      = .ok (sm_mapped
        ⟨[16, 0, 0, 0, 0, 0, 0, 0, 7, 0, 0, 0, 0, 0, 0, 0],
         [9, 9, 9, 9, 9, 9, 9, 9, 7, 0, 0, 0, 0, 0, 0, 0]⟩) ∧
    (sm_mapped
        ⟨[16, 0, 0, 0, 0, 0, 0, 0, 7, 0, 0, 0, 0, 0, 0, 0],
         [9, 9, 9, 9, 9, 9, 9, 9, 7, 0, 0, 0, 0, 0, 0, 0]⟩).length
      = sm_weights_size
        ⟨[16, 0, 0, 0, 0, 0, 0, 0, 7, 0, 0, 0, 0, 0, 0, 0],
         [9, 9, 9, 9, 9, 9, 9, 9, 7, 0, 0, 0, 0, 0, 0, 0]⟩ :=
  (sm_get_constants_start_spec
      ⟨[16, 0, 0, 0, 0, 0, 0, 0, 7, 0, 0, 0, 0, 0, 0, 0],
       [9, 9, 9, 9, 9, 9, 9, 9, 7, 0, 0, 0, 0, 0, 0, 0]⟩
      (by decide)).2.2 (by decide) (by decide)

/-! ## Execution lifecycle, synchronous build (model.h:180-217, 531-575,
neither USE_CUDA nor USE_XPU defined)

On the synchronous build the completion signal is the plain boolean
`run_finished_` (default-initialised to `false`): `run` clears it, invokes
the externally supplied `run_impl` (which does not touch it), and sets it;
`is_finished` returns it without any failure path; `wait_for_completion`
is a no-op. -/

/-- The completion-signal state of one model instance. -/
structure ModelExec where
  run_finished : Bool
deriving DecidableEq

/-- `AOTInductorModelBase::run` on the synchronous build (model.h:180-217):
`run_finished_ = false`, delegate to `run_impl`, `run_finished_ = true`. -/
def run_sync (m : ModelExec) : ModelExec :=
  let m1 : ModelExec := { m with run_finished := false }
  { m1 with run_finished := true }

/-- `AOTInductorModelBase::is_finished` on the synchronous build
(model.h:531-558): returns `run_finished_`, with no throwing branch. -/
def is_finished_sync (m : ModelExec) : Except String Bool :=
  .ok m.run_finished

/-- `AOTInductorModelBase::wait_for_completion` on the synchronous build
(model.h:561-575): both device-specific bodies are compiled out. -/
def wait_for_completion_sync (m : ModelExec) : ModelExec :=
  m

/-- The operations a caller may interleave after a first `run`. -/
inductive ExecOp where
  | runOp : ExecOp
  | waitOp : ExecOp
deriving DecidableEq

def apply_exec_op (m : ModelExec) (op : ExecOp) : ModelExec :=
  match op with
  | .runOp => run_sync m
  | .waitOp => wait_for_completion_sync m

def apply_exec_ops (m : ModelExec) (ops : List ExecOp) : ModelExec :=
  ops.foldl apply_exec_op m

theorem apply_exec_ops_finished (ops : List ExecOp) (m : ModelExec)
    (h : m.run_finished = true) :
    (apply_exec_ops m ops).run_finished = true := by
  induction ops generalizing m with
  | nil => exact h
  | cons op rest ih =>
    cases op with
    | runOp => exact ih _ rfl
    | waitOp => exact ih _ h

/-- C6: on any instance where `run` has occurred at least once (any
interleaving of further `run` / `wait_for_completion` calls afterwards),
`is_finished` never throws, and `is_finished` immediately after
`wait_for_completion` returns `true`. -/
theorem is_finished_after_run_spec (m : ModelExec) (ops : List ExecOp) :
    isOkE (is_finished_sync (apply_exec_ops (run_sync m) ops)) = true ∧
    is_finished_sync
        (wait_for_completion_sync (apply_exec_ops (run_sync m) ops))
      = .ok true := by
  constructor
  · rfl
  · unfold is_finished_sync wait_for_completion_sync
    rw [apply_exec_ops_finished ops (run_sync m) rfl]

/-! ## Device blob layout (model.h:394-411, `compute_gpu_constant_blob`,
USE_CUDA / USE_XPU build where the loop is compiled in) -/

/-- The per-constant size rounding of model.h:403-406: when `data_size` is
not a multiple of `AOTI_CONST_GPU_ALIGNMENT` (64), replace it by
`64 + (data_size / 64) * 64`. -/
def align_gpu (data_size : Nat) : Nat :=
  if data_size % 64 ≠ 0 then 64 + data_size / 64 * 64 else data_size

/-- The accumulation loop of model.h:401-409: each constant's offset is
the running blob size before its (rounded) size is added. -/
def cgb_loop (blob_size : Nat) : List Nat → Nat × List Nat
  | [] => (blob_size, [])
  | data_size :: rest =>
    let rounded := align_gpu data_size
    let (total, offs) := cgb_loop (blob_size + rounded) rest
    (total, blob_size :: offs)

/-- `compute_gpu_constant_blob` (model.h:394-411) on the list of declared
`data_size`s, returning the total blob size and the per-constant internal
offsets. -/
def compute_gpu_constant_blob (sizes : List Nat) : Nat × List Nat :=
  cgb_loop 0 sizes

theorem align_gpu_mod (s : Nat) : align_gpu s % 64 = 0 ∨ align_gpu s = s := by
  unfold align_gpu
  split
  · left; omega
  · right; rfl

theorem align_gpu_eq_mod_zero (s : Nat) (h : s % 64 = 0) : align_gpu s = s := by
  unfold align_gpu
  rw [if_neg (by omega)]

theorem align_gpu_multiple (s : Nat) : align_gpu s % 64 = 0 := by
  unfold align_gpu
  split
  · omega
  · omega

theorem align_gpu_pos (s : Nat) (h : 0 < s) : 0 < align_gpu s := by
  unfold align_gpu
  split
  · omega
  · omega

theorem cgb_loop_fst (b : Nat) (sizes : List Nat) :
    (cgb_loop b sizes).1 = b + (sizes.map align_gpu).sum := by
  induction sizes generalizing b with
  | nil => simp [cgb_loop]
  | cons s rest ih =>
    simp only [cgb_loop, List.map_cons, List.sum_cons]
    rw [ih]
    omega

theorem cgb_loop_snd_length (b : Nat) (sizes : List Nat) :
    (cgb_loop b sizes).2.length = sizes.length := by
  induction sizes generalizing b with
  | nil => rfl
  | cons s rest ih => simp [cgb_loop, ih]

theorem cgb_loop_snd_mem (b : Nat) (sizes : List Nat) (hb : b % 64 = 0) :
    ∀ o ∈ (cgb_loop b sizes).2, o % 64 = 0 := by
  induction sizes generalizing b with
  | nil => intro o ho; simp [cgb_loop] at ho
  | cons s rest ih =>
    intro o ho
    simp only [cgb_loop, List.mem_cons] at ho
    rcases ho with ho | ho
    · omega
    · exact ih (b + align_gpu s) (by have := align_gpu_multiple s; omega) o ho

theorem cgb_loop_head (b : Nat) (s : Nat) (rest : List Nat) :
    (cgb_loop b (s :: rest)).2.head? = some b := by
  simp [cgb_loop]

theorem cgb_loop_chain_le (b : Nat) (sizes : List Nat) :
    List.Chain' (fun o1 o2 => o1 ≤ o2) (cgb_loop b sizes).2 := by
  induction sizes generalizing b with
  | nil => simp [cgb_loop]
  | cons s rest ih =>
    simp only [cgb_loop]
    apply List.chain'_cons'.mpr
    refine ⟨?_, ih (b + align_gpu s)⟩
    intro o2 ho2
    cases rest with
    | nil => simp [cgb_loop] at ho2
    | cons s2 r2 =>
      rw [cgb_loop_head] at ho2
      injection ho2 with ho2
      omega

theorem cgb_loop_chain_lt (b : Nat) (sizes : List Nat)
    (hpos : ∀ s ∈ sizes, 0 < s) :
    List.Chain' (fun o1 o2 => o1 < o2) (cgb_loop b sizes).2 := by
  induction sizes generalizing b with
  | nil => simp [cgb_loop]
  | cons s rest ih =>
    have hs : 0 < align_gpu s :=
      align_gpu_pos s (hpos s (List.mem_cons_self s rest))
    simp only [cgb_loop]
    apply List.chain'_cons'.mpr
    constructor
    · intro o2 ho2
      cases rest with
      | nil => simp [cgb_loop] at ho2
      | cons s2 r2 =>
        rw [cgb_loop_head] at ho2
        injection ho2 with ho2
        omega
    · exact ih (b + align_gpu s)
        (fun x hx => hpos x (List.mem_cons_of_mem s hx))

/-- C3 (amended): the layout computation is a pure function of the
declared sizes (hence deterministic); it returns one offset per constant;
every offset is a multiple of 64; the offsets are nondecreasing in
ordinal order — strictly increasing whenever every constant's data size
is nonzero, but repeating whenever a zero-sized constant occurs — and the
total blob size is the sum of the per-constant sizes rounded up to the
next multiple of 64. -/
theorem compute_gpu_constant_blob_spec (sizes : List Nat) :
    (compute_gpu_constant_blob sizes).2.length = sizes.length ∧
    (∀ o ∈ (compute_gpu_constant_blob sizes).2, o % 64 = 0) ∧
    List.Chain' (fun o1 o2 => o1 ≤ o2) (compute_gpu_constant_blob sizes).2 ∧
    ((∀ s ∈ sizes, 0 < s) →
      List.Chain' (fun o1 o2 => o1 < o2) (compute_gpu_constant_blob sizes).2) ∧
    (compute_gpu_constant_blob sizes).1 = (sizes.map align_gpu).sum := by
  refine ⟨cgb_loop_snd_length 0 sizes, cgb_loop_snd_mem 0 sizes rfl,
    cgb_loop_chain_le 0 sizes, cgb_loop_chain_lt 0 sizes, ?_⟩
  unfold compute_gpu_constant_blob
  rw [cgb_loop_fst]
  omega

/-- C3 counterexample: with a zero-sized constant first, the assigned
offsets are `[0, 0]` — not strictly increasing — even though the claim
asserts strict increase for every descriptor list. -/
theorem compute_gpu_constant_blob_zero_size_counterexample :
    compute_gpu_constant_blob [0, 16] = (64, [0, 0]) ∧
    ¬ List.Chain' (fun o1 o2 => o1 < o2) (compute_gpu_constant_blob [0, 16]).2 :=
  ⟨rfl, by
    intro h
    rw [show (compute_gpu_constant_blob [0, 16]).2 = [0, 0] from rfl] at h
    exact absurd (List.chain'_cons.mp h).1 (by omega)⟩

/-- Witness for C3 at the all-nonzero sizes `[1, 64]`. -/
theorem compute_gpu_constant_blob_spec_witness :
    List.Chain' (fun o1 o2 => o1 < o2) (compute_gpu_constant_blob [1, 64]).2 :=
  (compute_gpu_constant_blob_spec [1, 64]).2.2.2.1 (by decide)

/-! ## The constant loader (model.h:258-341, `load_constants`, with
`constant_ptr`, model.h:359-392)

Two build configurations share the loop: `gpuBuild = true` stands for a
build with `USE_CUDA` or `USE_XPU` defined (the CPU folded-constant skip
at model.h:277-282 is compiled out, `constant_ptr` returns a blob pointer
and memcpys payload bytes unless `skip_copy`), `gpuBuild = false` for the
pure-CPU build (folded constants are skipped entirely; `constant_ptr`
returns a pointer straight into the payload). Each processed constant is
recorded in a `Trace` carrying the value of the `bytes_read` cursor when
the constant was examined and the payload byte range (if any) its tensor
was served from. -/

/-- Per-constant static descriptor, the fields of `ConstInfo`
(model.h:622-635) that the loader consumes (`opaque_metadata` is rendered
`extra_metadata`). -/
structure ConstInfo where
  name : String
  shape : List Int
  stride : List Int
  dtype : Int
  offset : Int
  data_size : Nat
  layout : Int
  extra_metadata : List Nat
  from_folded : Bool
deriving DecidableEq

instance : Inhabited ConstInfo :=
  ⟨⟨"", [], [], 0, 0, 0, 0, [], false⟩⟩

/-- A symbolic data pointer: into the embedded payload at a byte offset,
into the device constant blob at a byte offset, or the null pointer. -/
inductive Ptr where
  | payload : Nat → Ptr
  | blob : Nat → Ptr
  | null : Ptr
deriving DecidableEq

/-- The observable arguments of `aoti_torch_create_tensor_from_blob_v2`
(model.h:322-334): the data pointer plus the descriptor metadata. -/
structure Tensor where
  ptr : Ptr
  ndim : Nat
  shape : List Int
  stride : List Int
  offset : Int
  dtype : Int
  layout : Int
  extra_metadata : List Nat
deriving DecidableEq

def mk_tensor (info : ConstInfo) (p : Ptr) : Tensor :=
  { ptr := p, ndim := info.shape.length, shape := info.shape,
    stride := info.stride, offset := info.offset, dtype := info.dtype,
    layout := info.layout, extra_metadata := info.extra_metadata }

/-- One host-to-device copy performed by `constant_ptr` (model.h:369-384):
destination offset in the blob, source offset in the payload, length. -/
structure CopyOp where
  dst : Nat
  src : Nat
  len : Nat
deriving DecidableEq

/-- `constant_ptr` on a GPU build (model.h:364-385): pointer into the blob
at the constant's offset; unless `skip_copy`, copy `data_size` payload
bytes starting at `bytes_read` to it. -/
def constant_ptr_gpu (constant_offset bytes_read data_size : Nat)
    (skip_copy : Bool) : Ptr × List CopyOp :=
  (Ptr.blob constant_offset,
   if skip_copy then [] else [⟨constant_offset, bytes_read, data_size⟩])

/-- `constant_ptr` on the pure-CPU build (model.h:387-391): `skip_copy` is
rejected, otherwise a pointer straight into the payload at `bytes_read`. -/
def constant_ptr_cpu (bytes_read : Nat) (skip_copy : Bool) :
    Except String Ptr :=
  if skip_copy then .error "pure cpu mode does not support skip copy"
  else .ok (Ptr.payload bytes_read)

/-- The `#if !USE_XPU && !USE_CUDA` guard of model.h:277-282: on the
pure-CPU build a folded constant is skipped entirely. -/
def skip_cpu_folded (gpuBuild : Bool) (info : ConstInfo) : Bool :=
  !gpuBuild && info.from_folded

/-- The record of how one loop iteration treated one constant. -/
structure Trace where
  idx : Nat
  name : String
  dsize : Nat
  cursor : Nat
  skipped : Bool
  src : Option (Nat × Nat)
  ptr : Option Ptr
deriving DecidableEq

instance : Inhabited Trace :=
  ⟨⟨0, "", 0, 0, false, none, none⟩⟩

/-- The loop body of `load_constants` (model.h:275-337): arguments are the
remaining descriptors, the remaining slice of `constants_internal_offset`,
the current ordinal and the `bytes_read` cursor; results are the traces,
the copies performed, the `(name, tensor)` pairs emplaced into
`constants_map_`, and the final cursor. -/
def load_loop (gpuBuild : Bool) :
    List ConstInfo → List Nat → Nat → Nat →
    Except String (List Trace × List CopyOp × List (String × Tensor) × Nat)
  | [], _, _, bytes_read => .ok ([], [], [], bytes_read)
  | info :: rest, offs, i, bytes_read =>
    if skip_cpu_folded gpuBuild info then
      match load_loop gpuBuild rest offs.tail (i + 1) bytes_read with
      | .error e => .error e
      | .ok (ts, cs, es, b) =>
        .ok (⟨i, info.name, info.data_size, bytes_read, true, none, none⟩ :: ts,
             cs, es, b)
    else
      match
        (if info.data_size ≠ 0 then
          if gpuBuild then
            match constant_ptr_gpu (offs.headD 0) bytes_read info.data_size
                info.from_folded with
            | (p, cs1) =>
              .ok (p, cs1,
                   if info.from_folded then none
                   else some (bytes_read, info.data_size))
          else
            match constant_ptr_cpu bytes_read info.from_folded with
            | .error e => .error e
            | .ok p => .ok (p, [], some (bytes_read, info.data_size))
         else
           .ok (Ptr.null, ([] : List CopyOp), (none : Option (Nat × Nat))) :
          Except String (Ptr × List CopyOp × Option (Nat × Nat))) with
      | .error e => .error e
      | .ok (p, cs1, srcrange) =>
        match load_loop gpuBuild rest offs.tail (i + 1)
            (bytes_read + info.data_size) with
        | .error e => .error e
        | .ok (ts, cs2, es, b) =>
          .ok (⟨i, info.name, info.data_size, bytes_read, false, srcrange,
                some p⟩ :: ts,
               cs1 ++ cs2, (info.name, mk_tensor info p) :: es, b)

/-- How much one constant advances the `bytes_read` cursor: nothing when
skipped by the CPU folded rule, its declared size otherwise. -/
def eff_size (gpuBuild : Bool) (info : ConstInfo) : Nat :=
  if skip_cpu_folded gpuBuild info then 0 else info.data_size

/-- The pointer `load_constants` obtains for a processed constant. -/
def ptr_of (gpuBuild : Bool) (off bytes_read : Nat) (info : ConstInfo) : Ptr :=
  if info.data_size = 0 then Ptr.null
  else if gpuBuild then Ptr.blob off
  else Ptr.payload bytes_read

/-- The payload byte range a processed constant's bytes are served from
(`none` for size-0 constants and for GPU folded constants, whose copy is
skipped). -/
def src_of (gpuBuild : Bool) (bytes_read : Nat) (info : ConstInfo) :
    Option (Nat × Nat) :=
  if info.data_size = 0 then none
  else if gpuBuild && info.from_folded then none
  else some (bytes_read, info.data_size)

/-- The copies a processed constant triggers. -/
def copies_of (gpuBuild : Bool) (off bytes_read : Nat) (info : ConstInfo) :
    List CopyOp :=
  if decide (info.data_size ≠ 0) && gpuBuild && !info.from_folded then
    [⟨off, bytes_read, info.data_size⟩]
  else []

/-- The trace one loop iteration leaves for one constant. -/
def trace_of (gpuBuild : Bool) (i off bytes_read : Nat) (info : ConstInfo) :
    Trace :=
  if skip_cpu_folded gpuBuild info then
    ⟨i, info.name, info.data_size, bytes_read, true, none, none⟩
  else
    ⟨i, info.name, info.data_size, bytes_read, false,
     src_of gpuBuild bytes_read info,
     some (ptr_of gpuBuild off bytes_read info)⟩

def ll_traces (gpuBuild : Bool) :
    List ConstInfo → List Nat → Nat → Nat → List Trace
  | [], _, _, _ => []
  | info :: rest, offs, i, br =>
    trace_of gpuBuild i (offs.headD 0) br info ::
      ll_traces gpuBuild rest offs.tail (i + 1) (br + eff_size gpuBuild info)

def ll_copies (gpuBuild : Bool) : List ConstInfo → List Nat → Nat → List CopyOp
  | [], _, _ => []
  | info :: rest, offs, br =>
    (if skip_cpu_folded gpuBuild info then []
     else copies_of gpuBuild (offs.headD 0) br info) ++
      ll_copies gpuBuild rest offs.tail (br + eff_size gpuBuild info)

def ll_entries (gpuBuild : Bool) :
    List ConstInfo → List Nat → Nat → List (String × Tensor)
  | [], _, _ => []
  | info :: rest, offs, br =>
    (if skip_cpu_folded gpuBuild info then []
     else [(info.name,
            mk_tensor info (ptr_of gpuBuild (offs.headD 0) br info))]) ++
      ll_entries gpuBuild rest offs.tail (br + eff_size gpuBuild info)

/-- The loop never throws (the only throwing path, `constant_ptr` with
`skip_copy` on the CPU build, is unreachable because CPU folded constants
are skipped first), and its results are the structural mirrors above. -/
theorem load_loop_eq (gpuBuild : Bool) (infos : List ConstInfo)
    (offs : List Nat) (i br : Nat) :
    load_loop gpuBuild infos offs i br =
      .ok (ll_traces gpuBuild infos offs i br,
           ll_copies gpuBuild infos offs br,
           ll_entries gpuBuild infos offs br,
           br + (infos.map (eff_size gpuBuild)).sum) := by
  induction infos generalizing offs i br with
  | nil => simp [load_loop, ll_traces, ll_copies, ll_entries]
  | cons info rest ih =>
    by_cases hsk : skip_cpu_folded gpuBuild info = true
    · simp only [load_loop, ll_traces, ll_copies, ll_entries]
      simp [hsk, ih, trace_of, eff_size]
    · have hsk2 : skip_cpu_folded gpuBuild info = false := by
        simp at hsk; exact hsk
      by_cases hsz : info.data_size = 0
      · simp only [load_loop, ll_traces, ll_copies, ll_entries]
        simp [hsk2, hsz, ih, trace_of, eff_size, src_of, ptr_of, copies_of]
      · by_cases hg : gpuBuild = true
        · subst hg
          by_cases hfold : info.from_folded = true
          · simp [load_loop, ll_traces, ll_copies, ll_entries, hsk2, hsz,
              hfold, ih, trace_of, eff_size, src_of, ptr_of, copies_of,
              constant_ptr_gpu]
            omega
          · simp [load_loop, ll_traces, ll_copies, ll_entries, hsk2, hsz,
              hfold, ih, trace_of, eff_size, src_of, ptr_of, copies_of,
              constant_ptr_gpu]
            omega
        · have hg2 : gpuBuild = false := by simp at hg; exact hg
          subst hg2
          have hff : info.from_folded = false := by
            unfold skip_cpu_folded at hsk2
            simpa using hsk2
          simp [load_loop, ll_traces, ll_copies, ll_entries, hsk2, hsz, hff,
            ih, trace_of, eff_size, src_of, ptr_of, copies_of,
            constant_ptr_cpu]
          omega

/-! ## `load_constants` (model.h:258-341) -/

/-- The static configuration and mutable registry state a `load_constants`
call starts from. `gpuBuild` selects the build (USE_CUDA/USE_XPU versus
neither); `device_is_cpu` is `device_type_ == aoti_torch_device_type_cpu`;
`cmap`/`carr` are `*constants_map_` and `*constants_` (the map is assumed
installed, as the constructor guarantees — `reserve` is called on it
unconditionally). -/
structure LCInput where
  gpuBuild : Bool
  device_is_cpu : Bool
  include_weights : Bool
  infos : List ConstInfo
  cmap : List (String × Tensor)
  carr : Option (List (Option Tensor))
deriving DecidableEq

/-- The observable outcome of `load_constants`: the registry map and
indexed array afterwards, the host-to-device copies performed, the
per-constant traces, and the size of the device blob allocation (if one
was made). -/
structure LCOutput where
  cmap : List (String × Tensor)
  carr : Option (List (Option Tensor))
  copies : List CopyOp
  traces : List Trace
  blob : Option Nat
deriving DecidableEq

/-- model.h:262-269: `constants_internal_offset` starts as a zero vector
and `blob_size` as 0; they are filled by `compute_gpu_constant_blob` only
when the device is not CPU, and that function's body is compiled in only
on a GPU build. -/
def lc_layout (inp : LCInput) : Nat × List Nat :=
  if inp.device_is_cpu then (0, List.replicate inp.infos.length 0)
  else if inp.gpuBuild then
    compute_gpu_constant_blob (inp.infos.map (fun c => c.data_size))
  else (0, List.replicate inp.infos.length 0)

/-- model.h:266-268: `RAII_gpuMalloc(blob_size)` happens exactly when the
device is not CPU and a GPU build is in effect. -/
def lc_blob (inp : LCInput) : Option Nat :=
  if !inp.device_is_cpu && inp.gpuBuild then some (lc_layout inp).1 else none

/-- `AOTInductorModelBase::load_constants` (model.h:258-341): compute the
blob layout (and allocate the blob) for non-CPU devices; return
immediately when `include_weights` is false; otherwise run the loop,
emplace the produced `(name, tensor)` pairs into the map, and rebuild the
indexed array from the map. -/
def load_constants (inp : LCInput) : Except String LCOutput :=
  let offsets := (lc_layout inp).2
  if !inp.include_weights then
    .ok ⟨inp.cmap, inp.carr, [], [], lc_blob inp⟩
  else
    match load_loop inp.gpuBuild inp.infos offsets 0 0 with
    | .error e => .error e
    | .ok (ts, cs, es, _) =>
      match update_constants_array_from_map (inp.infos.map (fun c => c.name))
          (some (inp.cmap ++ es)) inp.carr with
      | .error e => .error e
      | .ok arr => .ok ⟨inp.cmap ++ es, some arr, cs, ts, lc_blob inp⟩

def lc_entries (inp : LCInput) : List (String × Tensor) :=
  ll_entries inp.gpuBuild inp.infos (lc_layout inp).2 0

def lc_traces (inp : LCInput) : List Trace :=
  ll_traces inp.gpuBuild inp.infos (lc_layout inp).2 0 0

def lc_copies (inp : LCInput) : List CopyOp :=
  ll_copies inp.gpuBuild inp.infos (lc_layout inp).2 0

def lc_arr (inp : LCInput) : List (Option Tensor) :=
  List.zipWith
    (fun nm slot => found_or (lookup_map (inp.cmap ++ lc_entries inp) nm) slot)
    (inp.infos.map (fun c => c.name))
    (uacm_base (inp.infos.map (fun c => c.name)) inp.carr)

/-- With weights included, `load_constants` never throws and its outcome
is given by the structural mirrors of the loop. -/
theorem load_constants_ok (inp : LCInput) (h : inp.include_weights = true) :
    load_constants inp =
      .ok ⟨inp.cmap ++ lc_entries inp, some (lc_arr inp), lc_copies inp,
           lc_traces inp, lc_blob inp⟩ := by
  unfold load_constants
  rw [h]
  simp only [Bool.not_true, Bool.false_eq_true, if_false, load_loop_eq,
    update_constants_array_from_map]
  simp only [lc_entries, lc_arr, lc_copies, lc_traces]

/-- `load_constants` on an instance constructed without weights: the
early-return of model.h:270-272. -/
theorem load_constants_no_weights (inp : LCInput)
    (h : inp.include_weights = false) :
    load_constants inp = .ok ⟨inp.cmap, inp.carr, [], [], lc_blob inp⟩ := by
  unfold load_constants
  rw [h]
  rfl

/-- C8: when the instance was constructed with `include_weights = false`,
`load_constants` performs only the layout computation (and, on non-CPU
devices, the blob allocation) and returns: no payload byte is read or
copied, no constant is processed, and the registry map and indexed array
are exactly what they were before the call. -/
theorem load_constants_skip_weights (inp : LCInput)
    (h : inp.include_weights = false) :
    load_constants inp = .ok ⟨inp.cmap, inp.carr, [], [], lc_blob inp⟩ :=
  load_constants_no_weights inp h

/-- Witness for C8 at a concrete one-constant instance. -/
theorem load_constants_skip_weights_witness :
    load_constants
        ⟨true, false, false, [⟨"w", [2], [1], 6, 0, 8, 0, [], false⟩],
         [], none⟩
      = .ok ⟨[], none, [], [],
        lc_blob ⟨true, false, false, [⟨"w", [2], [1], 6, 0, 8, 0, [], false⟩],
         [], none⟩⟩ :=
  load_constants_skip_weights
    ⟨true, false, false, [⟨"w", [2], [1], 6, 0, 8, 0, [], false⟩], [], none⟩
    rfl

/-! ## Trace characterization and claim C7 -/

theorem tail_getD {α : Type} (l : List α) (j : Nat) (d : α) :
    l.tail.getD j d = l.getD (j + 1) d := by
  cases l <;> simp

theorem ll_traces_length (g : Bool) (infos : List ConstInfo) (offs : List Nat)
    (i br : Nat) : (ll_traces g infos offs i br).length = infos.length := by
  induction infos generalizing offs i br with
  | nil => rfl
  | cons info rest ih => simp [ll_traces, ih]

theorem ll_traces_getD (g : Bool) (infos : List ConstInfo) (offs : List Nat)
    (i br j : Nat) (hj : j < infos.length) (t0 : Trace) :
    (ll_traces g infos offs i br).getD j t0 =
      trace_of g (i + j) (offs.getD j 0)
        (br + ((infos.take j).map (eff_size g)).sum)
        (infos.getD j default) := by
  induction infos generalizing offs i br j with
  | nil => simp at hj
  | cons info rest ih =>
    cases j with
    | zero => cases offs <;> simp [ll_traces]
    | succ j2 =>
      simp only [ll_traces, List.getD_cons_succ]
      rw [ih offs.tail (i + 1) (br + eff_size g info) j2 (by simpa using hj)]
      rw [tail_getD]
      have h1 : i + 1 + j2 = i + (j2 + 1) := by omega
      have h2 : br + eff_size g info + ((rest.take j2).map (eff_size g)).sum =
          br + (((info :: rest).take (j2 + 1)).map (eff_size g)).sum := by
        simp only [List.take_succ_cons, List.map_cons, List.sum_cons]
        omega
      rw [h1, h2]

theorem trace_of_idx (g : Bool) (i off br : Nat) (c : ConstInfo) :
    (trace_of g i off br c).idx = i := by
  unfold trace_of; split <;> rfl

theorem trace_of_dsize (g : Bool) (i off br : Nat) (c : ConstInfo) :
    (trace_of g i off br c).dsize = c.data_size := by
  unfold trace_of; split <;> rfl

theorem trace_of_cursor (g : Bool) (i off br : Nat) (c : ConstInfo) :
    (trace_of g i off br c).cursor = br := by
  unfold trace_of; split <;> rfl

theorem trace_of_src (g : Bool) (i off br : Nat) (c : ConstInfo) :
    (trace_of g i off br c).src =
      (if skip_cpu_folded g c then none else src_of g br c) := by
  unfold trace_of; split
  · rfl
  · rfl

theorem trace_of_ptr (g : Bool) (i off br : Nat) (c : ConstInfo) :
    (trace_of g i off br c).ptr =
      (if skip_cpu_folded g c then none
       else some (ptr_of g off br c)) := by
  unfold trace_of; split
  · rfl
  · rfl

theorem trace_of_skipped (g : Bool) (i off br : Nat) (c : ConstInfo) :
    (trace_of g i off br c).skipped = skip_cpu_folded g c := by
  unfold trace_of; split
  · simp_all
  · simp_all

/-- Every trace of a full `load_constants` run is the trace of its ordinal,
taken at the prefix-sum cursor. -/
theorem lc_traces_mem (inp : LCInput) (t : Trace) (ht : t ∈ lc_traces inp) :
    ∃ j, j < inp.infos.length ∧
      t = trace_of inp.gpuBuild j ((lc_layout inp).2.getD j 0)
        ((inp.infos.take j).map (eff_size inp.gpuBuild)).sum
        (inp.infos.getD j default) := by
  unfold lc_traces at ht
  obtain ⟨j, hj, hget⟩ := List.mem_iff_getElem.mp ht
  have hlen : j < inp.infos.length := by
    rw [ll_traces_length] at hj; exact hj
  refine ⟨j, hlen, ?_⟩
  have hgd := ll_traces_getD inp.gpuBuild inp.infos (lc_layout inp).2 0 0 j
    hlen t
  rw [List.getD_eq_getElem _ _ hj, hget] at hgd
  simpa using hgd

theorem eff_size_gpu_eq (c : ConstInfo) : eff_size true c = c.data_size := rfl

/-- C7 (amended): during `load_constants`, every payload byte range read
for a constant starts at the `bytes_read` cursor, which equals the sum of
the declared data sizes of all *prior constants that were not skipped* by
the CPU-build folded-constant rule, and its length is the constant's
declared size. On GPU builds no constant is skipped, so the cursor equals
the sum of the declared sizes of all prior constants — the destination
blob offsets of `compute_gpu_constant_blob` play no role in these source
positions. -/
theorem load_constants_source_cursor (inp : LCInput) (out : LCOutput)
    (h : load_constants inp = .ok out) :
    (∀ t, t ∈ out.traces → ∀ s l, t.src = some (s, l) →
      s = ((inp.infos.take t.idx).map (eff_size inp.gpuBuild)).sum ∧
      l = t.dsize) ∧
    (inp.gpuBuild = true → ∀ t, t ∈ out.traces →
      t.cursor = ((inp.infos.take t.idx).map (fun c => c.data_size)).sum) := by
  by_cases hw : inp.include_weights = true
  · rw [load_constants_ok inp hw] at h
    injection h with h
    have htr : out.traces = lc_traces inp := by rw [← h]
    constructor
    · intro t ht s l hsrc
      rw [htr] at ht
      obtain ⟨j, hj, hchar⟩ := lc_traces_mem inp t ht
      subst hchar
      rw [trace_of_src] at hsrc
      rw [trace_of_idx, trace_of_dsize]
      by_cases hsk : skip_cpu_folded inp.gpuBuild (inp.infos.getD j default)
        = true
      · rw [if_pos hsk] at hsrc
        exact absurd hsrc (by simp)
      · rw [if_neg hsk] at hsrc
        unfold src_of at hsrc
        split_ifs at hsrc with e1 e2
        injection hsrc with hp
        injection hp with hp1 hp2
        exact ⟨hp1.symm, hp2.symm⟩
    · intro hg t ht
      rw [htr] at ht
      obtain ⟨j, hj, hchar⟩ := lc_traces_mem inp t ht
      subst hchar
      rw [trace_of_cursor, trace_of_idx, hg]
      have he : eff_size true = fun c => c.data_size :=
        funext (fun c => eff_size_gpu_eq c)
      rw [he]
  · have hw2 : inp.include_weights = false := by
      cases hq : inp.include_weights
      · rfl
      · exact absurd hq hw
    rw [load_constants_no_weights inp hw2] at h
    injection h with h
    have htr : out.traces = [] := by rw [← h]
    constructor
    · intro t ht
      rw [htr] at ht
      exact absurd ht (by simp)
    · intro hg t ht
      rw [htr] at ht
      exact absurd ht (by simp)

/-- A pure-CPU-build instance with a folded 16-byte constant followed by
an ordinary 8-byte constant: the second constant is read from payload
offset 0, not from 16. -/
def c7inp : LCInput :=
  ⟨false, true, true,
   [⟨"f", [], [], 0, 0, 16, 0, [], true⟩,
    ⟨"g", [], [], 0, 0, 8, 0, [], false⟩],
   [], none⟩

/-- C7 counterexample: on the pure-CPU build the folded constant is
skipped without advancing the cursor, so the following constant's source
byte range starts at 0 even though the sum of the declared sizes of all
prior constants is 16. -/
theorem load_constants_source_cursor_counterexample :
    (load_constants c7inp).map
        (fun o => o.traces.map (fun t => (t.idx, t.src)))
      = .ok [(0, none), (1, some (0, 8))] ∧
    ((c7inp.infos.take 1).map (fun c => c.data_size)).sum = 16 ∧
    (0 : Nat) ≠ 16 :=
  ⟨rfl, rfl, by decide⟩

/-- A GPU-build two-constant instance for the C7 witness. -/
def c7winp : LCInput :=
  ⟨true, false, true,
   [⟨"a", [], [], 0, 0, 16, 0, [], false⟩,
    ⟨"b", [], [], 0, 0, 8, 0, [], false⟩],
   [], none⟩

/-- Witness for C7 on a GPU build: the second constant is copied from
payload offset 16, the sum of the prior constant's declared size. -/
theorem load_constants_source_cursor_witness :
    (16 : Nat) = ((c7winp.infos.take 1).map (eff_size c7winp.gpuBuild)).sum ∧
    (8 : Nat) = (8 : Nat) :=
  (load_constants_source_cursor c7winp
      ⟨c7winp.cmap ++ lc_entries c7winp, some (lc_arr c7winp),
       lc_copies c7winp, lc_traces c7winp, lc_blob c7winp⟩
      (load_constants_ok c7winp rfl)).1
    ⟨1, "b", 8, 16, false, some (16, 8), some (Ptr.blob 64)⟩
    (by decide) 16 8 rfl

/-! ## Claim C2: CPU folded constants -/

theorem lookup_map_cons {H : Type} (k : String) (v : H)
    (rest : List (String × H)) (nm : String) :
    lookup_map ((k, v) :: rest) nm =
      if k = nm then some v else lookup_map rest nm := by
  by_cases h : k = nm
  · simp [lookup_map, List.find?_cons, h]
  · simp [lookup_map, List.find?_cons, h]

theorem lookup_map_append {H : Type} (m1 m2 : List (String × H)) (nm : String)
    (h : lookup_map m1 nm = none) :
    lookup_map (m1 ++ m2) nm = lookup_map m2 nm := by
  induction m1 with
  | nil => rfl
  | cons p rest ih =>
    obtain ⟨k, v⟩ := p
    by_cases hk : k = nm
    · rw [lookup_map_cons, if_pos hk] at h
      exact absurd h (by simp)
    · rw [lookup_map_cons, if_neg hk] at h
      rw [List.cons_append, lookup_map_cons, if_neg hk]
      exact ih h

theorem ll_copies_cpu (infos : List ConstInfo) (offs : List Nat) (br : Nat) :
    ll_copies false infos offs br = [] := by
  induction infos generalizing offs br with
  | nil => rfl
  | cons info rest ih =>
    simp only [ll_copies]
    rw [ih]
    by_cases hsk : skip_cpu_folded false info = true
    · rw [if_pos hsk]
      rfl
    · rw [if_neg hsk]
      simp [copies_of]

theorem ll_entries_lookup_none (g : Bool) (infos : List ConstInfo)
    (offs : List Nat) (br : Nat) (nm : String)
    (h : ∀ c, c ∈ infos → c.name = nm → skip_cpu_folded g c = true) :
    lookup_map (ll_entries g infos offs br) nm = none := by
  induction infos generalizing offs br with
  | nil => rfl
  | cons info rest ih =>
    have hrec := ih offs.tail (br + eff_size g info)
      (fun c hc hcn => h c (List.mem_cons_of_mem _ hc) hcn)
    by_cases hsk : skip_cpu_folded g info = true
    · simp only [ll_entries]
      rw [if_pos hsk, List.nil_append]
      exact hrec
    · have hname : ¬ info.name = nm := fun he =>
        absurd (h info (List.mem_cons_self _ _) he) hsk
      simp only [ll_entries]
      rw [if_neg hsk, List.singleton_append, lookup_map_cons, if_neg hname]
      exact hrec

theorem getD_mem {α : Type} (l : List α) (j : Nat) (d : α)
    (h : j < l.length) : l.getD j d ∈ l := by
  rw [List.getD_eq_getElem _ _ h]
  exact List.getElem_mem _

/-- C2 (amended): on a CPU target (pure-CPU build), `load_constants`
skips every `from_folded` constant entirely: no payload bytes are copied
at all, no blob allocation exists, the cursor is not advanced for it, and
*no registry entry is created for it* — assuming the name was absent
before and every constant sharing the name is folded, the registry map
afterwards still has no entry under that constant's name (rather than an
entry pointing at the original bytes). -/
theorem load_constants_cpu_folded_skips (inp : LCInput) (out : LCOutput)
    (hgpu : inp.gpuBuild = false) (hdev : inp.device_is_cpu = true)
    (hload : load_constants inp = .ok out)
    (j : Nat) (hj : j < inp.infos.length)
    (hf : (inp.infos.getD j default).from_folded = true)
    (hn : lookup_map inp.cmap (inp.infos.getD j default).name = none)
    (hu : ∀ c, c ∈ inp.infos → c.name = (inp.infos.getD j default).name →
      c.from_folded = true) :
    out.copies = [] ∧ out.blob = none ∧
    lookup_map out.cmap (inp.infos.getD j default).name = none ∧
    (inp.include_weights = true →
      ∃ t, t ∈ out.traces ∧ t.idx = j ∧ t.skipped = true ∧ t.src = none ∧
        t.ptr = none) := by
  have hskj : skip_cpu_folded inp.gpuBuild (inp.infos.getD j default)
      = true := by
    rw [hgpu]
    unfold skip_cpu_folded
    rw [hf]
    rfl
  by_cases hw : inp.include_weights = true
  · rw [load_constants_ok inp hw] at hload
    injection hload with hload
    have hmap : out.cmap = inp.cmap ++ lc_entries inp := by rw [← hload]
    have htr : out.traces = lc_traces inp := by rw [← hload]
    have hcp : out.copies = lc_copies inp := by rw [← hload]
    have hbl : out.blob = lc_blob inp := by rw [← hload]
    refine ⟨?_, ?_, ?_, fun _ => ?_⟩
    · rw [hcp]
      unfold lc_copies
      rw [hgpu]
      exact ll_copies_cpu inp.infos (lc_layout inp).2 0
    · rw [hbl]
      unfold lc_blob
      rw [hdev]
      rfl
    · rw [hmap, lookup_map_append _ _ _ hn]
      unfold lc_entries
      refine ll_entries_lookup_none inp.gpuBuild inp.infos (lc_layout inp).2 0
        _ (fun c hc hcn => ?_)
      rw [hgpu]
      unfold skip_cpu_folded
      rw [hu c hc hcn]
      rfl
    · have hlen : j < (lc_traces inp).length := by
        unfold lc_traces
        rw [ll_traces_length]
        exact hj
      have hval : (lc_traces inp).getD j default =
          trace_of inp.gpuBuild (0 + j) ((lc_layout inp).2.getD j 0)
            (0 + ((inp.infos.take j).map (eff_size inp.gpuBuild)).sum)
            (inp.infos.getD j default) :=
        ll_traces_getD inp.gpuBuild inp.infos (lc_layout inp).2 0 0 j hj
          default
      refine ⟨(lc_traces inp).getD j default, ?_, ?_, ?_, ?_, ?_⟩
      · rw [htr]
        exact getD_mem _ j default hlen
      · rw [hval, trace_of_idx]
        omega
      · rw [hval, trace_of_skipped]
        exact hskj
      · rw [hval, trace_of_src, if_pos hskj]
      · rw [hval, trace_of_ptr, if_pos hskj]
  · have hw2 : inp.include_weights = false := by
      cases hq : inp.include_weights
      · rfl
      · exact absurd hq hw
    rw [load_constants_no_weights inp hw2] at hload
    injection hload with hload
    refine ⟨?_, ?_, ?_, fun hcontra => absurd hcontra (by rw [hw2]; simp)⟩
    · rw [← hload]
    · rw [← hload]
      unfold lc_blob
      rw [hdev]
      rfl
    · rw [← hload]
      exact hn

/-- The single-CPU-folded-constant instance of the C2 counterexample. -/
def c2inp : LCInput :=
  ⟨false, true, true, [⟨"c", [], [], 0, 0, 16, 0, [], true⟩], [], none⟩

/-- Its `load_constants` outcome. -/
def c2out : LCOutput :=
  ⟨[], some [none], [], [⟨0, "c", 16, 0, true, none, none⟩], none⟩

/-- C2 counterexample: a CPU target with one folded constant: after
`load_constants` the registry map contains *no entry at all* for the
constant, contradicting the claim that its registry entry points at the
original location of its bytes. -/
theorem load_constants_cpu_folded_counterexample :
    load_constants c2inp = .ok c2out ∧
    c2out.cmap = [] ∧
    lookup_map c2out.cmap "c" = none :=
  ⟨rfl, rfl, rfl⟩

/-- Witness for the C2 amended theorem at the concrete instance. -/
theorem load_constants_cpu_folded_skips_witness :
    c2out.copies = [] ∧ c2out.blob = none ∧
    lookup_map c2out.cmap (c2inp.infos.getD 0 default).name = none ∧
    (c2inp.include_weights = true →
      ∃ t, t ∈ c2out.traces ∧ t.idx = 0 ∧ t.skipped = true ∧ t.src = none ∧
        t.ptr = none) :=
  load_constants_cpu_folded_skips c2inp c2out rfl rfl rfl 0 (by decide) rfl
    rfl (by decide)

/-! ## Claim C10: zero-size constants -/

theorem ll_entries_lookup_first (g : Bool) (infos : List ConstInfo)
    (offs : List Nat) (br : Nat) (j : Nat) (hj : j < infos.length)
    (hnsk : skip_cpu_folded g (infos.getD j default) = false)
    (hfirst : ∀ k, k < j →
      (infos.getD k default).name ≠ (infos.getD j default).name ∨
      skip_cpu_folded g (infos.getD k default) = true) :
    ∃ off br2,
      lookup_map (ll_entries g infos offs br) (infos.getD j default).name =
        some (mk_tensor (infos.getD j default)
          (ptr_of g off br2 (infos.getD j default))) := by
  induction infos generalizing offs br j with
  | nil => simp at hj
  | cons info rest ih =>
    cases j with
    | zero =>
      simp only [List.getD_cons_zero] at hnsk ⊢
      refine ⟨offs.headD 0, br, ?_⟩
      simp only [ll_entries]
      rw [if_neg (by rw [hnsk]; exact Bool.false_ne_true),
        List.singleton_append, lookup_map_cons, if_pos rfl]
    | succ j2 =>
      have hj2 : j2 < rest.length := by simpa using hj
      simp only [List.getD_cons_succ] at hnsk ⊢
      have hfirst2 : ∀ k, k < j2 →
          (rest.getD k default).name ≠ (rest.getD j2 default).name ∨
          skip_cpu_folded g (rest.getD k default) = true := by
        intro k hk
        have := hfirst (k + 1) (by omega)
        simpa using this
      by_cases hsk : skip_cpu_folded g info = true
      · simp only [ll_entries]
        rw [if_pos hsk, List.nil_append]
        exact ih offs.tail (br + eff_size g info) j2 hj2 hnsk hfirst2
      · have hzero := hfirst 0 (by omega)
        simp only [List.getD_cons_zero, List.getD_cons_succ] at hzero
        have hname : ¬ info.name = (rest.getD j2 default).name := by
          rcases hzero with hne | hcontra
          · exact hne
          · exact absurd hcontra hsk
        simp only [ll_entries]
        rw [if_neg hsk, List.singleton_append, lookup_map_cons, if_neg hname]
        exact ih offs.tail (br + eff_size g info) j2 hj2 hnsk hfirst2

/-- C10: a constant with declared data size 0 that is not skipped by the
CPU folded rule still has a tensor built from the null data pointer and
registered under its name (looked up, given the name was fresh), and the
running read cursor is unchanged by that constant: the cursor after it
(the prefix sum through ordinal j) equals the cursor at it. -/
theorem load_constants_zero_size_spec (inp : LCInput) (out : LCOutput)
    (hload : load_constants inp = .ok out)
    (hw : inp.include_weights = true)
    (j : Nat) (hj : j < inp.infos.length)
    (hsz : (inp.infos.getD j default).data_size = 0)
    (hns : skip_cpu_folded inp.gpuBuild (inp.infos.getD j default) = false)
    (hn : lookup_map inp.cmap (inp.infos.getD j default).name = none)
    (hfirst : ∀ k, k < j →
      (inp.infos.getD k default).name ≠ (inp.infos.getD j default).name ∨
      skip_cpu_folded inp.gpuBuild (inp.infos.getD k default) = true) :
    lookup_map out.cmap (inp.infos.getD j default).name =
      some (mk_tensor (inp.infos.getD j default) Ptr.null) ∧
    (∃ t, t ∈ out.traces ∧ t.idx = j ∧ t.ptr = some Ptr.null ∧
      t.src = none ∧
      t.cursor = ((inp.infos.take j).map (eff_size inp.gpuBuild)).sum ∧
      ((inp.infos.take (j + 1)).map (eff_size inp.gpuBuild)).sum
        = t.cursor) := by
  have hnsk2 : ¬ skip_cpu_folded inp.gpuBuild (inp.infos.getD j default)
      = true := by
    rw [hns]
    exact Bool.false_ne_true
  rw [load_constants_ok inp hw] at hload
  injection hload with hload
  have hmap : out.cmap = inp.cmap ++ lc_entries inp := by rw [← hload]
  have htr : out.traces = lc_traces inp := by rw [← hload]
  have heff0 : eff_size inp.gpuBuild (inp.infos.getD j default) = 0 := by
    unfold eff_size
    rw [if_neg hnsk2]
    exact hsz
  constructor
  · rw [hmap, lookup_map_append _ _ _ hn]
    unfold lc_entries
    obtain ⟨off, br2, hlk⟩ := ll_entries_lookup_first inp.gpuBuild inp.infos
      (lc_layout inp).2 0 j hj hns hfirst
    rw [hlk]
    unfold ptr_of
    rw [if_pos hsz]
  · have hlen : j < (lc_traces inp).length := by
      unfold lc_traces
      rw [ll_traces_length]
      exact hj
    have hval : (lc_traces inp).getD j default =
        trace_of inp.gpuBuild (0 + j) ((lc_layout inp).2.getD j 0)
          (0 + ((inp.infos.take j).map (eff_size inp.gpuBuild)).sum)
          (inp.infos.getD j default) :=
      ll_traces_getD inp.gpuBuild inp.infos (lc_layout inp).2 0 0 j hj default
    have hsum : ((inp.infos.take (j + 1)).map (eff_size inp.gpuBuild)).sum =
        ((inp.infos.take j).map (eff_size inp.gpuBuild)).sum := by
      have hq : inp.infos[j]? = some (inp.infos.getD j default) := by
        rw [List.getD_eq_getElem _ _ hj]
        exact List.getElem?_eq_getElem hj
      rw [List.take_succ, hq, List.map_append, List.sum_append]
      simp only [Option.toList_some, List.map_cons, List.map_nil,
        List.sum_cons, List.sum_nil]
      rw [heff0]
      omega
    refine ⟨(lc_traces inp).getD j default, ?_, ?_, ?_, ?_, ?_, ?_⟩
    · rw [htr]
      exact getD_mem _ j default hlen
    · rw [hval, trace_of_idx]
      omega
    · rw [hval, trace_of_ptr, if_neg hnsk2]
      unfold ptr_of
      rw [if_pos hsz]
    · rw [hval, trace_of_src, if_neg hnsk2]
      unfold src_of
      rw [if_pos hsz]
    · rw [hval, trace_of_cursor]
      omega
    · rw [hval, trace_of_cursor, hsum]
      omega

/-- The one-zero-size-constant instance of the C10 witness. -/
def c10inp : LCInput :=
  ⟨false, true, true, [⟨"z", [], [], 0, 0, 0, 0, [], false⟩], [], none⟩

/-- Its `load_constants` outcome: the tensor is built from the null
pointer and registered, and the cursor stays 0. -/
def c10out : LCOutput :=
  ⟨[("z", ⟨Ptr.null, 0, [], [], 0, 0, 0, []⟩)],
   some [some ⟨Ptr.null, 0, [], [], 0, 0, 0, []⟩],
   [], [⟨0, "z", 0, 0, false, none, some Ptr.null⟩], none⟩

/-- Witness for C10 at the concrete instance. -/
theorem load_constants_zero_size_spec_witness :
    lookup_map c10out.cmap (c10inp.infos.getD 0 default).name =
      some (mk_tensor (c10inp.infos.getD 0 default) Ptr.null) ∧
    (∃ t, t ∈ c10out.traces ∧ t.idx = 0 ∧ t.ptr = some Ptr.null ∧
      t.src = none ∧
      t.cursor = ((c10inp.infos.take 0).map (eff_size c10inp.gpuBuild)).sum ∧
      ((c10inp.infos.take (0 + 1)).map (eff_size c10inp.gpuBuild)).sum
        = t.cursor) :=
  load_constants_zero_size_spec c10inp c10out rfl rfl 0 (by decide) rfl rfl
    rfl (by decide)

/-! ## Claim C9: metadata accessors (model.h:425-483)

All accessors index `inputs_info_` / `outputs_info_` / `constants_info_`
through `std::vector::at(idx)` with an `int64_t` ordinal: a negative
ordinal converts to a huge `size_type`, so any ordinal outside
`0..size-1` throws `std::out_of_range`, while an in-range ordinal cannot
throw. -/

/-- Input/output descriptor (`ParamInfo`, model.h:618-620). -/
structure ParamInfo where
  name : String
deriving DecidableEq

/-- `std::vector::at` with an `int64_t` index. -/
def at_idx {α : Type} (l : List α) (idx : Int) : Except String α :=
  if h : 0 ≤ idx ∧ idx < (l.length : Int) then
    .ok (l.get ⟨idx.toNat, by omega⟩)
  else .error "vector at out of range"

def input_name (inputs_info : List ParamInfo) (idx : Int) :
    Except String String :=
  (at_idx inputs_info idx).map (fun p => p.name)

def output_name (outputs_info : List ParamInfo) (idx : Int) :
    Except String String :=
  (at_idx outputs_info idx).map (fun p => p.name)

def constant_name (constants_info : List ConstInfo) (idx : Int) :
    Except String String :=
  (at_idx constants_info idx).map (fun c => c.name)

def constant_ndim (constants_info : List ConstInfo) (idx : Int) :
    Except String Nat :=
  (at_idx constants_info idx).map (fun c => c.shape.length)

def constant_shape (constants_info : List ConstInfo) (idx : Int) :
    Except String (List Int) :=
  (at_idx constants_info idx).map (fun c => c.shape)

def constant_stride (constants_info : List ConstInfo) (idx : Int) :
    Except String (List Int) :=
  (at_idx constants_info idx).map (fun c => c.stride)

def constant_dtype (constants_info : List ConstInfo) (idx : Int) :
    Except String Int :=
  (at_idx constants_info idx).map (fun c => c.dtype)

def constant_offset (constants_info : List ConstInfo) (idx : Int) :
    Except String Int :=
  (at_idx constants_info idx).map (fun c => c.offset)

def constant_data_size (constants_info : List ConstInfo) (idx : Int) :
    Except String Nat :=
  (at_idx constants_info idx).map (fun c => c.data_size)

def constant_layout (constants_info : List ConstInfo) (idx : Int) :
    Except String Int :=
  (at_idx constants_info idx).map (fun c => c.layout)

def constant_from_folded (constants_info : List ConstInfo) (idx : Int) :
    Except String Bool :=
  (at_idx constants_info idx).map (fun c => c.from_folded)

theorem isOkE_map {ε α β : Type} (f : α → β) (e : Except ε α) :
    isOkE (e.map f) = isOkE e := by
  cases e <;> rfl

theorem at_idx_isOk {α : Type} (l : List α) (idx : Int) :
    isOkE (at_idx l idx) =
      decide (0 ≤ idx ∧ idx < (l.length : Int)) := by
  unfold at_idx
  split
  · next h => simp [isOkE, h]
  · next h =>
      have hneg : ¬ (0 ≤ idx ∧ idx < (l.length : Int)) := by omega
      simp [isOkE, hneg]

/-- C9: every per-constant / per-input / per-output metadata accessor
throws on an ordinal outside `0..count-1` and never throws on an in-range
ordinal. -/
theorem metadata_accessors_range_spec (inputs_info outputs_info :
    List ParamInfo) (constants_info : List ConstInfo) (idx : Int) :
    (¬ (0 ≤ idx ∧ idx < (constants_info.length : Int)) →
      isOkE (constant_name constants_info idx) = false ∧
      isOkE (constant_ndim constants_info idx) = false ∧
      isOkE (constant_shape constants_info idx) = false ∧
      isOkE (constant_stride constants_info idx) = false ∧
      isOkE (constant_dtype constants_info idx) = false ∧
      isOkE (constant_offset constants_info idx) = false ∧
      isOkE (constant_data_size constants_info idx) = false ∧
      isOkE (constant_layout constants_info idx) = false ∧
      isOkE (constant_from_folded constants_info idx) = false) ∧
    ((0 ≤ idx ∧ idx < (constants_info.length : Int)) →
      isOkE (constant_name constants_info idx) = true ∧
      isOkE (constant_ndim constants_info idx) = true ∧
      isOkE (constant_shape constants_info idx) = true ∧
      isOkE (constant_stride constants_info idx) = true ∧
      isOkE (constant_dtype constants_info idx) = true ∧
      isOkE (constant_offset constants_info idx) = true ∧
      isOkE (constant_data_size constants_info idx) = true ∧
      isOkE (constant_layout constants_info idx) = true ∧
      isOkE (constant_from_folded constants_info idx) = true) ∧
    (¬ (0 ≤ idx ∧ idx < (inputs_info.length : Int)) →
      isOkE (input_name inputs_info idx) = false) ∧
    ((0 ≤ idx ∧ idx < (inputs_info.length : Int)) →
      isOkE (input_name inputs_info idx) = true) ∧
    (¬ (0 ≤ idx ∧ idx < (outputs_info.length : Int)) →
      isOkE (output_name outputs_info idx) = false) ∧
    ((0 ≤ idx ∧ idx < (outputs_info.length : Int)) →
      isOkE (output_name outputs_info idx) = true) := by
  refine ⟨fun hout => ?_, fun hin => ?_, fun hout => ?_, fun hin => ?_,
    fun hout => ?_, fun hin => ?_⟩
  · unfold constant_name constant_ndim constant_shape constant_stride
      constant_dtype constant_offset constant_data_size constant_layout
      constant_from_folded
    simp [isOkE_map, at_idx_isOk, hout]
  · unfold constant_name constant_ndim constant_shape constant_stride
      constant_dtype constant_offset constant_data_size constant_layout
      constant_from_folded
    simp [isOkE_map, at_idx_isOk, hin]
  · unfold input_name
    simp [isOkE_map, at_idx_isOk, hout]
  · unfold input_name
    simp [isOkE_map, at_idx_isOk, hin]
  · unfold output_name
    simp [isOkE_map, at_idx_isOk, hout]
  · unfold output_name
    simp [isOkE_map, at_idx_isOk, hin]

/-- Witness for C9: one-element descriptor lists at the in-range ordinal 0
(and, for contrast, the absurd bound `0 < 1` discharged concretely). -/
theorem metadata_accessors_range_spec_witness :
    isOkE (constant_name [⟨"c", [], [], 0, 0, 4, 0, [], false⟩] 0) = true ∧
    isOkE (constant_ndim [⟨"c", [], [], 0, 0, 4, 0, [], false⟩] 0) = true ∧
    isOkE (constant_shape [⟨"c", [], [], 0, 0, 4, 0, [], false⟩] 0) = true ∧
    isOkE (constant_stride [⟨"c", [], [], 0, 0, 4, 0, [], false⟩] 0) = true ∧
    isOkE (constant_dtype [⟨"c", [], [], 0, 0, 4, 0, [], false⟩] 0) = true ∧
    isOkE (constant_offset [⟨"c", [], [], 0, 0, 4, 0, [], false⟩] 0) = true ∧
    isOkE (constant_data_size [⟨"c", [], [], 0, 0, 4, 0, [], false⟩] 0)
      = true ∧
    isOkE (constant_layout [⟨"c", [], [], 0, 0, 4, 0, [], false⟩] 0) = true ∧
    isOkE (constant_from_folded [⟨"c", [], [], 0, 0, 4, 0, [], false⟩] 0)
      = true :=
  (metadata_accessors_range_spec [⟨"i"⟩] [⟨"o"⟩]
    [⟨"c", [], [], 0, 0, 4, 0, [], false⟩] 0).2.1 (by decide)

end AOTI
